import Mathlib

/-!
# Verification of the `TcpServer` debug bridge (`src/tcp_server.rs`)

Shallow embedding of the bridge server worker loop and handle operations of
`TcpServer`. The worker thread body (`TcpServer::new`, the closure passed to
`thread::spawn`) is modelled as a step relation on a `Server` state; the pure
byte-processing parts (UTF-8 decoding as performed by `String::from_utf8`,
NUL trimming via `trim_end_matches` and the command drain loop) are modelled
as executable functions on `List Nat` (bytes) and `List Char`.

Modelling conventions:
* a byte chunk returned by one `stream.read(&mut buffer)` call with
  `Ok(bytes_read)` is `ReadResult.Bytes chunk` where `chunk = buffer[..bytes_read]`
  (so an orderly peer close, which yields `Ok(0)`, is `ReadResult.Bytes []`);
* `Option` models panics: a `none` step is the worker thread aborting via
  `unwrap`/`panic!` (for example on non-UTF-8 input);
* socket writes are collected into a transcript `Server.writes` in the order
  `write_all` is called; closing the stream (`stream.shutdown`) coincides with
  the transition back to `Listening` in the same step, so every byte in the
  transcript at that point was written before the close.
-/

namespace TcpServer

/-- The `Outgoing` command enum (handle → worker) from the source:
`Message(String)` and `Kill` (the terminate command enqueued by `shutdown`). -/
inductive Outgoing where
  | Message (text : String)
  | Kill
deriving DecidableEq, Repr

/-- The `Incoming` event enum (worker → handle) from the source:
`Message(String)`, `Connected`, `Disconnected`. -/
inductive Incoming where
  | Message (text : String)
  | Connected
  | Disconnected
deriving DecidableEq, Repr

/-- Is `b` a UTF-8 continuation byte (`0x80..=0xBF`)? -/
def isCont (b : Nat) : Bool := 0x80 ≤ b && b < 0xC0

/-- UTF-8 decoding of a byte sequence into a list of scalar values, exactly the
validation performed by Rust's `String::from_utf8`: rejects overlong forms,
surrogate code points and values above `U+10FFFF`; `none` models `Err`
(on which the worker's `unwrap` panics). -/
def utf8Decode : List Nat → Option (List Char)
  | [] => some []
  | b :: bs =>
    if b < 0x80 then
      (utf8Decode bs).map (fun cs => Char.ofNat b :: cs)
    else if b < 0xC2 then none
    else if b < 0xE0 then
      match bs with
      | b1 :: bs1 =>
        if isCont b1 then
          (utf8Decode bs1).map (fun cs =>
            Char.ofNat ((b - 0xC0) * 64 + (b1 - 0x80)) :: cs)
        else none
      | [] => none
    else if b < 0xF0 then
      match bs with
      | b1 :: b2 :: bs2 =>
        if (if b = 0xE0 then decide (0xA0 ≤ b1) && decide (b1 < 0xC0)
            else if b = 0xED then decide (0x80 ≤ b1) && decide (b1 < 0xA0)
            else isCont b1) && isCont b2 then
          (utf8Decode bs2).map (fun cs =>
            Char.ofNat ((b - 0xE0) * 4096 + (b1 - 0x80) * 64 + (b2 - 0x80)) :: cs)
        else none
      | _ => none
    else if b < 0xF5 then
      match bs with
      | b1 :: b2 :: b3 :: bs3 =>
        if (if b = 0xF0 then decide (0x90 ≤ b1) && decide (b1 < 0xC0)
            else if b = 0xF4 then decide (0x80 ≤ b1) && decide (b1 < 0x90)
            else isCont b1) && isCont b2 && isCont b3 then
          (utf8Decode bs3).map (fun cs =>
            Char.ofNat ((b - 0xF0) * 262144 + (b1 - 0x80) * 4096
              + (b2 - 0x80) * 64 + (b3 - 0x80)) :: cs)
        else none
      | _ => none
    else none

/-- UTF-8 encoding of one scalar value, as `str::as_bytes` produces it. -/
def utf8EncodeChar (c : Char) : List Nat :=
  let n := c.toNat
  if n < 0x80 then [n]
  else if n < 0x800 then [0xC0 + n / 64, 0x80 + n % 64]
  else if n < 0x10000 then [0xE0 + n / 4096, 0x80 + n / 64 % 64, 0x80 + n % 64]
  else [0xF0 + n / 262144, 0x80 + n / 4096 % 64, 0x80 + n / 64 % 64, 0x80 + n % 64]

/-- UTF-8 encoding of a string (`message.as_bytes()` in the source). -/
def utf8Encode (s : String) : List Nat := (s.data.map utf8EncodeChar).flatten

/-- `message.trim_end_matches('\0')`: remove all trailing NUL characters. -/
def trimEndNul (cs : List Char) : List Char :=
  (cs.reverse.dropWhile (fun c => c = Char.ofNat 0)).reverse

/-- Processing of one successful socket read (`Ok(bytes_read)` branch of the
worker loop): decode `buffer[..bytes_read]` as UTF-8 (panic — `none` — on
failure), strip trailing NULs, drop the `"ping"` heartbeat silently, otherwise
emit a single `Incoming.Message` event carrying the whole trimmed text. -/
def processRead (chunk : List Nat) : Option (List Incoming) :=
  match utf8Decode chunk with
  | none => none
  | some cs =>
    let message := String.mk (trimEndNul cs)
    if message = "ping" then some []
    else some [Incoming.Message message]

/-- The five bytes the worker writes when draining `Kill`: the source writes
the byte-string literal `kill` followed by a NUL. -/
def killBytes : List Nat := [107, 105, 108, 108, 0]

/-- The command drain loop (`while let Ok(message) = rx.try_recv()`): returns
the bytes written to the stream, whether a `Kill` ended the session
(`end_loop`), and the commands left unconsumed in the channel (the drain
`break`s at the first `Kill`, leaving later commands queued). A `Message`
writes its UTF-8 bytes followed by one NUL byte; `Kill` writes `killBytes`. -/
def drainCommands : List Outgoing → List Nat × Bool × List Outgoing
  | [] => ([], false, [])
  | Outgoing.Message m :: rest =>
    let r := drainCommands rest
    (utf8Encode m ++ [0] ++ r.1, r.2.1, r.2.2)
  | Outgoing.Kill :: rest => (killBytes, true, rest)

/-- The worker's control state: blocked in `bind`/`accept` (`Listening`) or in
the inner connection loop (`Connected`). The source's worker body is an
unconditional outer `loop` with no `break` or `return`: after a `Kill` (or a
connection reset) it closes the stream and re-binds, so there is no
terminated state and the thread never exits. -/
inductive WorkerState where
  | Listening
  | Connected
deriving DecidableEq, Repr

/-- Combined state of the worker and its two channels: the pending command
queue (`rx` side), the events sent so far on `tx` (in send order), and the
transcript of all bytes written to sockets (in `write_all` order). -/
structure Server where
  state : WorkerState
  queue : List Outgoing
  events : List Incoming
  writes : List Nat
deriving DecidableEq, Repr

/-- Outcome of one non-blocking `stream.read(&mut buffer)` call:
`Bytes chunk` is `Ok(bytes_read)` with `chunk = buffer[..bytes_read]`
(an orderly close delivers `Bytes []`), the error kinds follow the source's
match arms. -/
inductive ReadResult where
  | Bytes (chunk : List Nat)
  | WouldBlock
  | ConnectionReset
  | OtherError

/-- An atomic interaction with the worker: the handle enqueues a command
(`send_message` / `shutdown`), a peer connects while the worker blocks in
`accept`, or the worker runs one iteration of the inner connection loop with
the given read outcome. -/
inductive Action where
  | enqueue (c : Outgoing)
  | accept
  | iterate (r : ReadResult)

/-- The drain phase of one connection-loop iteration: consume the queue via
`drainCommands`, append the written bytes, and if a `Kill` was drained the
inner loop `break`s, the stream is shut down and the outer loop re-binds
(state `Listening`). -/
def drainStep (s : Server) : Server :=
  let r := drainCommands s.queue
  { s with
    writes := s.writes ++ r.1
    queue := r.2.2
    state := if r.2.1 then WorkerState.Listening else WorkerState.Connected }

/-- One atomic step of the worker/channel system. `none` models a panic of the
worker thread or an action that cannot occur in the given state. `accept`
embeds lines 46–56 of the source: accept the peer, flush every queued command
(`while rx.try_recv().is_ok() \x7b\x7d`), send `Incoming::Connected`.
`iterate r` embeds one pass of the inner loop: handle the read result, then
drain commands (skipped on a reset, whose `break` precedes the drain). -/
def step (s : Server) (a : Action) : Option Server :=
  match a with
  | Action.enqueue c => some { s with queue := s.queue ++ [c] }
  | Action.accept =>
    match s.state with
    | WorkerState.Listening =>
      some { s with
        state := WorkerState.Connected
        queue := []
        events := s.events ++ [Incoming.Connected] }
    | WorkerState.Connected => none
  | Action.iterate r =>
    match s.state with
    | WorkerState.Listening => none
    | WorkerState.Connected =>
      match r with
      | ReadResult.WouldBlock => some (drainStep s)
      | ReadResult.ConnectionReset =>
        some { s with
          events := s.events ++ [Incoming.Disconnected]
          state := WorkerState.Listening }
      | ReadResult.Bytes chunk =>
        match processRead chunk with
        | none => none
        | some evs => some (drainStep { s with events := s.events ++ evs })
      | ReadResult.OtherError => none

/-- The worker state right after `TcpServer::new` spawns the thread: blocked
in `accept`, both channels empty, nothing written. -/
def initServer : Server :=
  Server.mk WorkerState.Listening [] [] []

/-- `TcpServer::read_messages` (`incoming.try_iter().filter_map(..)`): consume
the queued events in FIFO order without blocking; yield the text of each
`Message`; consume `Connected` / `Disconnected` internally, setting the
mirrored `connected` flag to `true` / `false`. Returns the yielded texts and
the final flag. -/
def read_messages : List Incoming → Bool → List String × Bool
  | [], connected => ([], connected)
  | Incoming.Message m :: rest, connected =>
    let r := read_messages rest connected
    (m :: r.1, r.2)
  | Incoming.Connected :: rest, _ => read_messages rest true
  | Incoming.Disconnected :: rest, _ => read_messages rest false

/-- An observable effect of a handle method: enqueue a command on the
`outgoing` channel, or join the worker thread. -/
inductive HandleEffect where
  | send (c : Outgoing)
  | join
deriving DecidableEq, Repr

/-- The effects of `TcpServer::shutdown`, in order: it sends `Outgoing::Kill`
and returns. The `self.server_handle.join()` line is commented out in the
source, so no join effect occurs. -/
def shutdownEffects : List HandleEffect := [HandleEffect.send Outgoing.Kill]

/-- One connect-then-reset cycle: a peer is accepted, then on the next loop
iteration the read reports `ConnectionReset`. -/
def cycle (s : Server) : Option Server :=
  (step s Action.accept).bind (fun s1 => step s1 (Action.iterate ReadResult.ConnectionReset))

/-- `n` consecutive connect-then-reset cycles. -/
def cycles : Nat → Server → Option Server
  | 0, s => some s
  | n + 1, s => (cycle s).bind (cycles n)

/-- The event trace produced by `n` connect-then-reset cycles. -/
def cycleEvents : Nat → List Incoming
  | 0 => []
  | n + 1 => Incoming.Connected :: Incoming.Disconnected :: cycleEvents n

/-- Number of `Connected` events in a trace. -/
def countConnected : List Incoming → Nat
  | [] => 0
  | Incoming.Connected :: rest => countConnected rest + 1
  | _ :: rest => countConnected rest

/-- Number of `Disconnected` events in a trace. -/
def countDisconnected : List Incoming → Nat
  | [] => 0
  | Incoming.Disconnected :: rest => countDisconnected rest + 1
  | _ :: rest => countDisconnected rest

/-- The texts of the `Message` events of a trace, in order. -/
def messageTexts : List Incoming → List String
  | [] => []
  | Incoming.Message m :: rest => m :: messageTexts rest
  | _ :: rest => messageTexts rest

/-- The mirrored `connected` flag after consuming a trace of events starting
from flag `b`: the last `Connected`/`Disconnected` event wins. -/
def finalFlag (b : Bool) : List Incoming → Bool
  | [] => b
  | Incoming.Connected :: rest => finalFlag true rest
  | Incoming.Disconnected :: rest => finalFlag false rest
  | Incoming.Message _ :: rest => finalFlag b rest

/-- The bytes the drain loop writes for a list of `Message` commands. -/
def msgWrites (q : List Outgoing) : List Nat :=
  (q.map (fun c =>
    match c with
    | Outgoing.Message m => utf8Encode m ++ [0]
    | Outgoing.Kill => [])).flatten

/-! ## Helper lemmas -/

/-- The drain loop on a queue whose first `Kill` sits after the message block
`q1`: it writes the framed messages of `q1` in order, then the kill frame,
reports `end_loop`, and leaves the commands after the `Kill` unconsumed. -/
lemma drainCommands_split (q1 q2 : List Outgoing) (h1 : Outgoing.Kill ∉ q1) :
    drainCommands (q1 ++ Outgoing.Kill :: q2) = (msgWrites q1 ++ killBytes, true, q2) := by
  induction q1 with
  | nil => simp [drainCommands, msgWrites]
  | cons c rest ih =>
    cases c with
    | Message m =>
      have hrest : Outgoing.Kill ∉ rest := fun hc => h1 (List.mem_cons_of_mem _ hc)
      simp [drainCommands, ih hrest, msgWrites, List.append_assoc]
    | Kill => exact absurd (List.mem_cons_self _ _) h1

/-- One connect-then-reset cycle from `Listening`: the stale queue is flushed,
exactly one `Connected` and one `Disconnected` are emitted, nothing is
written, and the worker is back in `Listening`. -/
lemma cycle_from_listening (q : List Outgoing) (evs : List Incoming) (ws : List Nat) :
    cycle (Server.mk WorkerState.Listening q evs ws) =
      some (Server.mk WorkerState.Listening []
        (evs ++ [Incoming.Connected, Incoming.Disconnected]) ws) := by
  simp [cycle, step, List.append_assoc]

/-- Trace of `n + 1` connect-then-reset cycles from `Listening`. -/
lemma cycles_from_listening (n : Nat) (q : List Outgoing) (evs : List Incoming)
    (ws : List Nat) :
    cycles (n + 1) (Server.mk WorkerState.Listening q evs ws) =
      some (Server.mk WorkerState.Listening [] (evs ++ cycleEvents (n + 1)) ws) := by
  induction n generalizing q evs with
  | zero => simp [cycles, cycle_from_listening, cycleEvents]
  | succ m ih =>
    show (cycle (Server.mk WorkerState.Listening q evs ws)).bind (cycles (m + 1)) = _
    rw [cycle_from_listening, Option.some_bind,
      ih [] (evs ++ [Incoming.Connected, Incoming.Disconnected])]
    simp [cycleEvents, List.append_assoc]

/-- `n` cycles contain exactly `n` `Connected` events. -/
lemma countConnected_cycleEvents (n : Nat) : countConnected (cycleEvents n) = n := by
  induction n with
  | zero => rfl
  | succ m ih => simp [cycleEvents, countConnected, ih]

/-- `n` cycles contain exactly `n` `Disconnected` events. -/
lemma countDisconnected_cycleEvents (n : Nat) :
    countDisconnected (cycleEvents n) = n := by
  induction n with
  | zero => rfl
  | succ m ih => simp [cycleEvents, countDisconnected, ih]

/-! ## Claims -/

/-- C1 (counterexample): a single read whose bytes are the two NUL-terminated
messages `a` and `b` (bytes 97, 0, 98, 0) does **not** produce two separate
`Message` events with texts `"a"` and `"b"`: `trim_end_matches` only strips
trailing NULs, so the chunk is decoded as one message. -/
theorem coalesced_read_not_split :
    processRead [97, 0, 98, 0] ≠
      some [Incoming.Message "a", Incoming.Message "b"] := by decide

/-- C1 (amended): a read containing the bytes of `a\0b\0` produces exactly one
`Message` event whose text is `"a\x00b"` (interior NUL kept, trailing NULs
stripped), and `read_messages` then yields the single merged string. -/
theorem coalesced_read_merged :
    processRead [97, 0, 98, 0] = some [Incoming.Message "a\x00b"] ∧
    read_messages [Incoming.Message "a\x00b"] false = (["a\x00b"], false) := by decide

/-- C2 (counterexample): `shutdown` performs no join of the worker thread —
the join call is commented out in the source, so the effect list of
`shutdown` contains no `join`. -/
theorem shutdown_has_no_join_effect :
    HandleEffect.join ∉ shutdownEffects := by decide

/-- C2 (amended): `shutdown` enqueues `Kill` and returns without joining; the
worker, on its next loop iteration, writes the kill frame, closes the session
and goes back to `Listening` — the worker thread does not exit. -/
theorem shutdown_enqueues_kill_and_worker_relistens (evs : List Incoming)
    (ws : List Nat) :
    HandleEffect.join ∉ shutdownEffects ∧
    (step (Server.mk WorkerState.Connected [] evs ws) (Action.enqueue Outgoing.Kill)).bind
        (fun s1 => step s1 (Action.iterate ReadResult.WouldBlock)) =
      some (Server.mk WorkerState.Listening [] evs (ws ++ killBytes)) :=
  ⟨by decide, rfl⟩

/-- C3 (counterexample): an orderly peer close is a socket read of 0 bytes
(`Ok(0)`); on it the worker emits `Message ""` — not `Disconnected` — and
stays `Connected` instead of transitioning back to `Listening`. -/
theorem orderly_close_not_detected :
    step (Server.mk WorkerState.Connected [] [] []) (Action.iterate (ReadResult.Bytes [])) =
      some (Server.mk WorkerState.Connected [] [Incoming.Message ""] []) ∧
    countDisconnected [Incoming.Message ""] = 0 := by decide

/-- C3 (amended): for any `n + 1` consecutive connect-then-**reset** cycles
the worker returns to `Listening` (so it can accept the next connection and
never terminates from session loss), emitting exactly one `Connected` and one
`Disconnected` per cycle. -/
theorem reconnect_after_reset_cycles (n : Nat) (q : List Outgoing)
    (evs : List Incoming) (ws : List Nat) :
    cycles (n + 1) (Server.mk WorkerState.Listening q evs ws) =
      some (Server.mk WorkerState.Listening [] (evs ++ cycleEvents (n + 1)) ws) ∧
    countConnected (cycleEvents (n + 1)) = n + 1 ∧
    countDisconnected (cycleEvents (n + 1)) = n + 1 :=
  ⟨cycles_from_listening n q evs ws, countConnected_cycleEvents (n + 1),
    countDisconnected_cycleEvents (n + 1)⟩

/-- C4 (counterexample): a `Kill` (Terminate) enqueued while the worker is
still `Listening` is destroyed by the stale-command flush on accept: after
the peer connects the queue is empty, nothing was written, and the worker
keeps serving — the Terminate was never acted on. -/
theorem terminate_discarded_by_flush :
    (step initServer (Action.enqueue Outgoing.Kill)).bind (fun s => step s Action.accept) =
      some (Server.mk WorkerState.Connected [] [Incoming.Connected] []) := by decide

/-- C4 (amended): a `Kill` that is in the queue while the worker is
`Connected` (enqueued after the entry flush) is dequeued on the next loop
iteration and acted on: the messages before it are written, then the kill
frame, and the session is closed. -/
theorem terminate_acted_on_when_connected (q1 q2 : List Outgoing)
    (evs : List Incoming) (ws : List Nat) (h1 : Outgoing.Kill ∉ q1) :
    step (Server.mk WorkerState.Connected (q1 ++ Outgoing.Kill :: q2) evs ws)
        (Action.iterate ReadResult.WouldBlock) =
      some (Server.mk WorkerState.Listening q2 evs (ws ++ msgWrites q1 ++ killBytes)) := by
  simp [step, drainStep, drainCommands_split q1 q2 h1, List.append_assoc]

/-- C4 witness: with the queue `[Message "a", Kill]` in `Connected`, one
iteration writes `a`, NUL, then the kill frame, and re-listens. -/
theorem terminate_acted_on_witness :
    step (Server.mk WorkerState.Connected [Outgoing.Message "a", Outgoing.Kill] [] [])
        (Action.iterate ReadResult.WouldBlock) =
      some (Server.mk WorkerState.Listening [] [] [97, 0, 107, 105, 108, 108, 0]) :=
  terminate_acted_on_when_connected [Outgoing.Message "a"] [] [] [] (by decide)

/-- C5: on entry into `Connected` (the accept step) every previously queued
command is discarded before anything is written: the new state has an empty
queue, the write transcript is unchanged, and only `Connected` is emitted. -/
theorem stale_commands_flushed_on_connect (q : List Outgoing)
    (evs : List Incoming) (ws : List Nat) :
    step (Server.mk WorkerState.Listening q evs ws) Action.accept =
      some (Server.mk WorkerState.Connected [] (evs ++ [Incoming.Connected]) ws) := rfl

/-- C6: in one drain pass over a FIFO queue of messages followed by `Kill`,
every message is framed and written before the kill frame, and only then does
the pass end the session; concretely `send("last")` then `shutdown()` puts
the bytes of `last` plus NUL on the wire before the kill frame and the
close. -/
theorem messages_written_before_kill (msgs : List String) :
    drainCommands (msgs.map Outgoing.Message ++ [Outgoing.Kill]) =
      (msgWrites (msgs.map Outgoing.Message) ++ killBytes, true, []) ∧
    step (Server.mk WorkerState.Connected [Outgoing.Message "last", Outgoing.Kill] [] [])
        (Action.iterate ReadResult.WouldBlock) =
      some (Server.mk WorkerState.Listening [] []
        [108, 97, 115, 116, 0, 107, 105, 108, 108, 0]) :=
  ⟨drainCommands_split (msgs.map Outgoing.Message) [] (by simp), by decide⟩

/-- C7: for every chunk that decodes as UTF-8, if the text after stripping
trailing NULs equals `"ping"` the worker emits no event at all, and otherwise
it emits exactly `Message` of that text. -/
theorem ping_suppressed (chunk : List Nat) (cs : List Char)
    (h : utf8Decode chunk = some cs) :
    (String.mk (trimEndNul cs) = "ping" → processRead chunk = some []) ∧
    (String.mk (trimEndNul cs) ≠ "ping" →
      processRead chunk = some [Incoming.Message (String.mk (trimEndNul cs))]) := by
  unfold processRead
  rw [h]
  constructor
  · intro hp
    simp [hp]
  · intro hp
    simp [hp]

/-- C7 witness: the heartbeat bytes `p`, `i`, `n`, `g`, NUL decode, trim to
`"ping"`, and produce no event. -/
theorem ping_suppressed_witness :
    utf8Decode [112, 105, 110, 103, 0] = some ['p', 'i', 'n', 'g', Char.ofNat 0] ∧
    processRead [112, 105, 110, 103, 0] = some [] :=
  ⟨by decide,
    (ping_suppressed [112, 105, 110, 103, 0] ['p', 'i', 'n', 'g', Char.ofNat 0]
      (by decide)).1 (by decide)⟩

/-- C8: draining a single `Message m` writes exactly the UTF-8 bytes of `m`
followed by one NUL byte and nothing else; for `"hello"` these are the six
bytes 104, 101, 108, 108, 111, 0. -/
theorem message_framing (m : String) :
    drainCommands [Outgoing.Message m] = (utf8Encode m ++ [0], false, []) ∧
    utf8Encode "hello" ++ [0] = [104, 101, 108, 108, 111, 0] := by
  constructor
  · simp [drainCommands]
  · decide

/-- C9: `read_messages` consumes the queued events without blocking and
returns exactly the texts of the `Message` events in FIFO order; `Connected`
and `Disconnected` are consumed internally and the mirrored flag ends at the
value dictated by the last such event (an empty queue yields an empty
result). -/
theorem read_messages_yields_texts_updates_flag (evs : List Incoming) (b : Bool) :
    read_messages evs b = (messageTexts evs, finalFlag b evs) := by
  induction evs generalizing b with
  | nil => rfl
  | cons e rest ih =>
    cases e <;> simp [read_messages, messageTexts, finalFlag, ih]

/-- C10: when the worker drains a `Kill` while a connection is open, it
writes the five bytes 107, 105, 108, 108, 0 — the framed message `"kill"` —
to the socket, and only then closes the session and re-listens. -/
theorem kill_written_before_close (q2 : List Outgoing) (evs : List Incoming)
    (ws : List Nat) :
    step (Server.mk WorkerState.Connected (Outgoing.Kill :: q2) evs ws)
        (Action.iterate ReadResult.WouldBlock) =
      some (Server.mk WorkerState.Listening q2 evs (ws ++ killBytes)) ∧
    killBytes = utf8Encode "kill" ++ [0] :=
  ⟨rfl, by decide⟩

end TcpServer
